import Mathlib

/-!
Verification of the metrics module of sketch2face3D (sketch2mask/metrics.py).

The development shallowly embeds the numerical core of the module:
file enumeration and feature extraction (extract_features), the Frechet
Inception Distance (calculate_fid), the Kernel Inception Distance
(calculate_kid), Average Precision (compute_ap together with
precision_recall_curve_torch) and mean IoU (compute_miou).

Modelling conventions:
* real numbers of the Python code are modelled by rationals;
* numpy float NaN is modelled by Option (none = NaN);
* a raised ValueError is modelled by Except.error carrying the message;
* the pretrained Inception embedding and PIL image decoding are external
  collaborators and appear as opaque function parameters (decode);
* scipy.linalg.sqrtm returns a possibly complex matrix: it is modelled as
  a function returning a pair (real part, imaginary part) of matrices;
  the code keeps only the real part (lines 81-82 of metrics.py), so the
  embedding uses the first component;
* feature matrices are functions on Fin indices, label and probability
  grids are lists, matching the row/column access of the source.
-/

namespace Sketch2Mask

/-! ### File enumeration (extract_features, lines 15-47 of metrics.py)

A directory tree: a node carries the plain files in the directory and the
named subdirectories.  os.listdir returns both file and subdirectory
names of the top level; os.walk yields, top-down, the files of each
directory (directories themselves are never in its files component). -/

inductive FSTree where
  | node (files : List String) (subdirs : List (String × FSTree))

/-- Names returned by os.listdir: the plain files and the subdirectory
names of the top level. -/
def FSTree.listdir : FSTree → List String
  | .node files subdirs => files ++ subdirs.map Prod.fst

/-- The extension test of lines 23 and 27: name.lower().endswith(("png", "jpg", "jpeg")). -/
def isImageName (s : String) : Bool :=
  s.toLower.endsWith "png" || s.toLower.endsWith "jpg" || s.toLower.endsWith "jpeg"

mutual
/-- Lines 19-24: walk the tree top-down, collecting the file names that
pass the extension test, files of the root directory first. -/
def walkImages : FSTree → List String
  | .node files subdirs => files.filter isImageName ++ walkImagesOf subdirs
def walkImagesOf : List (String × FSTree) → List String
  | [] => []
  | (_, t) :: rest => walkImages t ++ walkImagesOf rest
end

mutual
/-- All file names of the tree in walk order (no filtering). -/
def allFiles : FSTree → List String
  | .node files subdirs => files ++ allFilesOf subdirs
def allFilesOf : List (String × FSTree) → List String
  | [] => []
  | (_, t) :: rest => allFiles t ++ allFilesOf rest
end

/-- Lines 19-27 of metrics.py: the enumeration performed by
extract_features, recursive via os.walk, non-recursive via os.listdir. -/
def extract_image_files (t : FSTree) (recursive : Bool) : List String :=
  if recursive then walkImages t
  else t.listdir.filter isImageName

/-- Lines 15-47 of metrics.py: enumeration, the empty check of line 29,
per-file decoding where a failing file is skipped (the try/except of
lines 36-42, modelled by decode returning none), and the final emptiness
check of line 44. -/
def extract_features {α : Type} (t : FSTree) (recursive : Bool)
    (decode : String → Option α) : Except String (List α) :=
  let image_files := extract_image_files t recursive
  if image_files.length = 0 then
    Except.error "Error: No image files found."
  else
    let features := image_files.filterMap decode
    if features.length = 0 then
      Except.error "Error: Unable to extract features. Check for corrupted images."
    else
      Except.ok features

mutual
theorem walkImages_eq_filter : (t : FSTree) →
    walkImages t = (allFiles t).filter isImageName
  | .node files subdirs => by
      rw [walkImages, allFiles, List.filter_append, walkImagesOf_eq_filter subdirs]
theorem walkImagesOf_eq_filter : (l : List (String × FSTree)) →
    walkImagesOf l = (allFilesOf l).filter isImageName
  | [] => rfl
  | (n, t) :: rest => by
      rw [walkImagesOf, allFilesOf, List.filter_append,
        walkImages_eq_filter t, walkImagesOf_eq_filter rest]
end

/-- Claim C5: file enumeration selects exactly the names that end,
case-insensitively, in png, jpg or jpeg; with recursive mode on it
traverses all subdirectories (selecting among all files of the tree),
with recursive mode off it considers only the top-level directory
entries. -/
theorem enumeration_extension_filter (t : FSTree) (recursive : Bool) :
    extract_image_files t recursive =
      (if recursive then allFiles t else t.listdir).filter isImageName := by
  cases recursive with
  | false => rfl
  | true => simpa [extract_image_files] using walkImages_eq_filter t

/-- Claim C7: feature extraction fails in exactly two cases, when the
enumeration finds no image file and when every found file fails to
decode; a file failing to decode while others succeed is skipped (the
result keeps exactly the successfully decoded files, in order). -/
theorem extract_features_failure_modes {α : Type} (t : FSTree) (recursive : Bool)
    (decode : String → Option α) :
    extract_features t recursive decode =
      (if extract_image_files t recursive = [] then
        Except.error "Error: No image files found."
      else if (extract_image_files t recursive).all (fun f => (decode f).isNone) then
        Except.error "Error: Unable to extract features. Check for corrupted images."
      else
        Except.ok ((extract_image_files t recursive).filterMap decode)) := by
  unfold extract_features
  by_cases h0 : extract_image_files t recursive = []
  · simp [h0]
  · have hlen : ¬ (extract_image_files t recursive).length = 0 := by
      simpa [List.length_eq_zero] using h0
    by_cases hall : (extract_image_files t recursive).all (fun f => (decode f).isNone)
    · have hnil : (extract_image_files t recursive).filterMap decode = [] := by
        rw [List.filterMap_eq_nil_iff]
        intro a ha
        have := (List.all_eq_true.mp hall) a ha
        simpa [Option.isNone_iff_eq_none] using this
      simp [h0, hall, hlen, hnil]
    · have hne : ¬ (extract_image_files t recursive).filterMap decode = [] := by
        intro hc
        apply hall
        rw [List.all_eq_true]
        intro a ha
        have := List.filterMap_eq_nil_iff.mp hc a ha
        simpa [Option.isNone_iff_eq_none] using this
      simp [h0, hall, hlen, hne, List.length_eq_zero]

/-! ### Linear-algebra helpers shared by FID and KID -/

/-- Dot product of two vectors. -/
def dotProd {n : ℕ} (u v : Fin n → ℚ) : ℚ := ∑ k, u k * v k

/-- Sum of all entries of a square matrix (numpy sum). -/
def matSum {m : ℕ} (A : Fin m → Fin m → ℚ) : ℚ := ∑ i, ∑ j, A i j

/-- Trace of a square matrix (numpy trace). -/
def traceOf {m : ℕ} (A : Fin m → Fin m → ℚ) : ℚ := ∑ i, A i i

/-- Matrix product (numpy @ on 2-d arrays). -/
def matMulQ {a b c : ℕ} (A : Fin a → Fin b → ℚ) (B : Fin b → Fin c → ℚ) :
    Fin a → Fin c → ℚ :=
  fun i k => ∑ j, A i j * B j k

/-! ### FID (calculate_fid, lines 51-86 of metrics.py)

Image loading and the Inception network are external; the embedding
starts from the two feature matrices (rows = observations). -/

/-- Column-wise mean of a feature matrix: features.mean(axis=0) (line 73). -/
def colMean {N D : ℕ} (X : Fin N → Fin D → ℚ) : Fin D → ℚ :=
  fun j => (∑ i, X i j) / (N : ℚ)

/-- numpy.cov(X, rowvar=False) as called on line 73: covariance of the
columns with rows as observations and the DEFAULT divisor N - 1
(numpy ddof = 1 when bias and ddof are left unset). -/
def npCov {N D : ℕ} (X : Fin N → Fin D → ℚ) : Fin D → Fin D → ℚ :=
  fun i j => (∑ k, (X k i - colMean X i) * (X k j - colMean X j)) / ((N : ℚ) - 1)

/-- Population covariance (divisor N, rows as observations), as the spec
describes the GaussianSummary. -/
def popCov {N D : ℕ} (X : Fin N → Fin D → ℚ) : Fin D → Fin D → ℚ :=
  fun i j => (∑ k, (X k i - colMean X i) * (X k j - colMean X j)) / (N : ℚ)

/-- Lines 73-86 of metrics.py.  sqrtm stands for scipy.linalg.sqrtm and
returns (real part, imaginary part); both branches of the
np.iscomplexobj test of lines 81-82 leave exactly the real part in play,
so the embedding uses the first component. -/
def calculate_fid {Nr Ng D : ℕ}
    (sqrtm : (Fin D → Fin D → ℚ) → (Fin D → Fin D → ℚ) × (Fin D → Fin D → ℚ))
    (real_features : Fin Nr → Fin D → ℚ) (gen_features : Fin Ng → Fin D → ℚ) : ℚ :=
  let mu_real := colMean real_features
  let sigma_real := npCov real_features
  let mu_gen := colMean gen_features
  let sigma_gen := npCov gen_features
  let diff := fun j => mu_real j - mu_gen j
  let covmean := (sqrtm (matMulQ sigma_real sigma_gen)).1
  dotProd diff diff +
    traceOf (fun i j => sigma_real i j + sigma_gen i j - 2 * covmean i j)

/-- The FID the claim describes, written from the spec's words: the same
formula but with the population covariance (divisor N) as the
GaussianSummary. -/
def fid_claimed {Nr Ng D : ℕ}
    (sqrtm : (Fin D → Fin D → ℚ) → (Fin D → Fin D → ℚ) × (Fin D → Fin D → ℚ))
    (real_features : Fin Nr → Fin D → ℚ) (gen_features : Fin Ng → Fin D → ℚ) : ℚ :=
  let sigma_real := popCov real_features
  let sigma_gen := popCov gen_features
  let diff := fun j => colMean real_features j - colMean gen_features j
  dotProd diff diff +
    traceOf (fun i j =>
      sigma_real i j + sigma_gen i j - 2 * (sqrtm (matMulQ sigma_real sigma_gen)).1 i j)

/-- Concrete 2x1 real feature matrix with rows 0 and 2. -/
def fidRealEx : Fin 2 → Fin 1 → ℚ := fun i _ => 2 * ((i : ℕ) : ℚ)

/-- Concrete 2x1 generated feature matrix with both rows 0. -/
def fidGenEx : Fin 2 → Fin 1 → ℚ := fun _ _ => 0

/-- A concrete stand-in for sqrtm: it returns its argument with zero
imaginary part (exact for the zero matrix arising in the example). -/
def fidSqrtmEx : (Fin 1 → Fin 1 → ℚ) →
    (Fin 1 → Fin 1 → ℚ) × (Fin 1 → Fin 1 → ℚ) :=
  fun M => (M, fun _ _ => 0)

/-- Claim C1, counterexample: on the concrete features fidRealEx (rows 0
and 2) and fidGenEx (rows 0 and 0), the code computes FID 3 while the
claimed population-covariance formula gives 2: the covariance used inside
calculate_fid is not the population covariance. -/
theorem fid_population_covariance_counterexample :
    calculate_fid fidSqrtmEx fidRealEx fidGenEx ≠
      fid_claimed fidSqrtmEx fidRealEx fidGenEx := by
  have hl : calculate_fid fidSqrtmEx fidRealEx fidGenEx = 3 := by
    simp [calculate_fid, npCov, colMean, dotProd, traceOf, matMulQ,
      fidSqrtmEx, fidRealEx, fidGenEx, Fin.sum_univ_two, Fin.sum_univ_one]
    norm_num
  have hr : fid_claimed fidSqrtmEx fidRealEx fidGenEx = 2 := by
    simp [fid_claimed, popCov, colMean, dotProd, traceOf, matMulQ,
      fidSqrtmEx, fidRealEx, fidGenEx, Fin.sum_univ_two, Fin.sum_univ_one]
    norm_num
  rw [hl, hr]
  norm_num

/-- npCov is the population covariance rescaled by N / (N - 1). -/
theorem npCov_eq_scaled_popCov {N D : ℕ} (X : Fin N → Fin D → ℚ)
    (i j : Fin D) :
    npCov X i j = ((N : ℚ) / ((N : ℚ) - 1)) * popCov X i j := by
  unfold npCov popCov
  rcases Nat.eq_zero_or_pos N with h | h
  · subst h
    simp
  · have hN : (N : ℚ) ≠ 0 := Nat.cast_ne_zero.mpr (Nat.pos_iff_ne_zero.mp h)
    by_cases h1 : (N : ℚ) - 1 = 0
    · simp [h1]
    · field_simp
      ring

/-- Claim C1, amended: the GaussianSummary computed inside calculate_fid
uses the SAMPLE covariance of the rows (numpy.cov default, divisor N - 1,
equal to N/(N-1) times the population covariance), and FID is
mu-difference squared norm plus trace of Sigma_real + Sigma_gen minus
twice the real part of the matrix square root of their product. -/
theorem fid_formula_sample_covariance {Nr Ng D : ℕ}
    (sqrtm : (Fin D → Fin D → ℚ) → (Fin D → Fin D → ℚ) × (Fin D → Fin D → ℚ))
    (real_features : Fin Nr → Fin D → ℚ) (gen_features : Fin Ng → Fin D → ℚ) :
    calculate_fid sqrtm real_features gen_features =
      (let sigma_real := fun i j =>
        ((Nr : ℚ) / ((Nr : ℚ) - 1)) * popCov real_features i j
       let sigma_gen := fun i j =>
        ((Ng : ℚ) / ((Ng : ℚ) - 1)) * popCov gen_features i j
       let diff := fun j => colMean real_features j - colMean gen_features j
       dotProd diff diff +
        traceOf (fun i j =>
          sigma_real i j + sigma_gen i j -
            2 * (sqrtm (matMulQ sigma_real sigma_gen)).1 i j)) := by
  simp only [← npCov_eq_scaled_popCov]
  rfl

/-! ### KID (calculate_kid, lines 89-142 of metrics.py)

The per-iteration index draws of np.random.choice (line 127-128) are
ambient randomness; they enter the embedding as the functions idx_real
and idx_gen giving, for each subset iteration, the m sampled row
indices. -/

/-- m = min(num_real, num_gen, max_subset_size) (line 116). -/
def subsetSize (num_real num_gen max_subset_size : ℕ) : ℕ :=
  min (min num_real num_gen) max_subset_size

/-- Lines 114-142 of metrics.py: the size check, the per-subset unbiased
estimate accumulation and the final division by num_subsets * m. -/
def calculate_kid {num_real num_gen n : ℕ} (num_subsets max_subset_size : ℕ)
    (real_features : Fin num_real → Fin n → ℚ)
    (gen_features : Fin num_gen → Fin n → ℚ)
    (idx_real : Fin num_subsets → Fin (subsetSize num_real num_gen max_subset_size) → Fin num_real)
    (idx_gen : Fin num_subsets → Fin (subsetSize num_real num_gen max_subset_size) → Fin num_gen) :
    Except String ℚ :=
  let m := subsetSize num_real num_gen max_subset_size
  if m < 2 then Except.error "Not enough samples to compute KID."
  else
    let t := ∑ s : Fin num_subsets,
      (let x := fun i => gen_features (idx_gen s i)
       let y := fun i => real_features (idx_real s i)
       let a := fun i j : Fin m =>
        (dotProd (x i) (x j) / (n : ℚ) + 1) ^ 3 + (dotProd (y i) (y j) / (n : ℚ) + 1) ^ 3
       let b := fun i j : Fin m => (dotProd (x i) (y j) / (n : ℚ) + 1) ^ 3
       (matSum a - traceOf a) / ((m : ℚ) - 1) - 2 * matSum b / (m : ℚ))
    Except.ok (t / ((num_subsets * m : ℕ) : ℚ))

/-- The polynomial kernel of the spec: k(u, v) = (dot u v / n + 1) cubed. -/
def polyKernel {n : ℕ} (u v : Fin n → ℚ) : ℚ :=
  (dotProd u v / (n : ℚ) + 1) ^ 3

/-- The per-subset unbiased estimate, written from the spec's words:
a = K(x,x) + K(y,y) and b = K(x,y) as m-by-m kernel matrices, estimate
(sum a - trace a)/(m-1) - 2 sum b / m. -/
def kid_subset_estimate {m n : ℕ} (x y : Fin m → Fin n → ℚ) : ℚ :=
  let a := fun i j => polyKernel (x i) (x j) + polyKernel (y i) (y j)
  let b := fun i j => polyKernel (x i) (y j)
  (matSum a - traceOf a) / ((m : ℚ) - 1) - 2 * matSum b / (m : ℚ)

/-- Claim C2: when m at least 2, each subset iteration contributes the
polynomial-kernel unbiased estimate over the drawn samples (x from the
generated set, y from the real set) and the returned KID is the sum of
the num_subsets estimates divided by num_subsets * m. -/
theorem kid_subset_formula {num_real num_gen n : ℕ}
    (num_subsets max_subset_size : ℕ)
    (real_features : Fin num_real → Fin n → ℚ)
    (gen_features : Fin num_gen → Fin n → ℚ)
    (idx_real : Fin num_subsets → Fin (subsetSize num_real num_gen max_subset_size) → Fin num_real)
    (idx_gen : Fin num_subsets → Fin (subsetSize num_real num_gen max_subset_size) → Fin num_gen)
    (h : 2 ≤ subsetSize num_real num_gen max_subset_size) :
    calculate_kid num_subsets max_subset_size real_features gen_features idx_real idx_gen =
      Except.ok ((∑ s : Fin num_subsets,
          kid_subset_estimate
            (fun i => gen_features (idx_gen s i))
            (fun i => real_features (idx_real s i))) /
        ((num_subsets * subsetSize num_real num_gen max_subset_size : ℕ) : ℚ)) := by
  unfold calculate_kid kid_subset_estimate polyKernel
  rw [if_neg (by omega)]

/-- Concrete 2x1 real feature matrix (rows 1 and 3) for the KID witness. -/
def kidRealEx : Fin 2 → Fin 1 → ℚ := fun i _ => 2 * ((i : ℕ) : ℚ) + 1

/-- Concrete 2x1 generated feature matrix (rows 2 and 5) for the KID witness. -/
def kidGenEx : Fin 2 → Fin 1 → ℚ := fun i _ => 3 * ((i : ℕ) : ℚ) + 2

/-- Concrete subset draw for the KID witness: the identity selection. -/
def kidIdxEx : Fin 1 → Fin (subsetSize 2 2 1000) → Fin 2 :=
  fun _ i => ⟨i.val, lt_of_lt_of_le i.isLt (by decide)⟩

/-- Claim C2, witness: the formula instantiated on concrete two-sample
one-dimensional feature sets with one subset draw. -/
theorem kid_subset_formula_witness :
    2 ≤ subsetSize 2 2 1000 ∧
      calculate_kid 1 1000 kidRealEx kidGenEx kidIdxEx kidIdxEx =
        Except.ok ((∑ s : Fin 1,
            kid_subset_estimate
              (fun i => kidGenEx (kidIdxEx s i))
              (fun i => kidRealEx (kidIdxEx s i))) /
          ((1 * subsetSize 2 2 1000 : ℕ) : ℚ)) :=
  ⟨by decide,
    kid_subset_formula 1 1000 kidRealEx kidGenEx kidIdxEx kidIdxEx (by decide)⟩

/-- Claim C6: calculate_kid fails (with the insufficient-samples error)
exactly when m = min of the two sample counts and max_subset_size is
below 2; for every input with m at least 2 it returns a value. -/
theorem kid_error_iff_insufficient {num_real num_gen n : ℕ}
    (num_subsets max_subset_size : ℕ)
    (real_features : Fin num_real → Fin n → ℚ)
    (gen_features : Fin num_gen → Fin n → ℚ)
    (idx_real : Fin num_subsets → Fin (subsetSize num_real num_gen max_subset_size) → Fin num_real)
    (idx_gen : Fin num_subsets → Fin (subsetSize num_real num_gen max_subset_size) → Fin num_gen) :
    (∃ e, calculate_kid num_subsets max_subset_size real_features gen_features
        idx_real idx_gen = Except.error e) ↔
      subsetSize num_real num_gen max_subset_size < 2 := by
  unfold calculate_kid
  by_cases h : subsetSize num_real num_gen max_subset_size < 2
  · simp [h]
  · simp [h]

/-! ### Mean IoU (compute_miou, lines 267-300 of metrics.py)

Masks are grids (lists of rows of integer labels); the elementwise
tensor comparisons pair the flattened grids position by position.
float NaN is modelled by Option: none stands for NaN. -/

/-- Count of positions where both masks equal the class
((pred_cls and true_cls).sum() of line 289). -/
def maskIntersection (pairs : List (ℕ × ℕ)) (cls : ℕ) : ℕ :=
  pairs.countP fun pr => pr.1 == cls && pr.2 == cls

/-- Count of positions where either mask equals the class
((pred_cls or true_cls).sum() of line 290). -/
def maskUnion (pairs : List (ℕ × ℕ)) (cls : ℕ) : ℕ :=
  pairs.countP fun pr => pr.1 == cls || pr.2 == cls

/-- numpy.nanmean on a list of float-or-NaN values: the mean of the
defined entries, NaN (none) when every entry is NaN. -/
def nanmean (l : List (Option ℚ)) : Option ℚ :=
  let defined := l.filterMap id
  if defined.length = 0 then none
  else some (defined.sum / (defined.length : ℚ))

/-- Lines 279-300 of metrics.py: per class, intersection and union of
the boolean masks pred == cls and true == cls; union 0 gives NaN,
otherwise intersection/union; the result is the NaN-ignoring mean. -/
def compute_miou (pred_masks true_masks : List (List ℕ)) (num_classes : ℕ) :
    Option ℚ :=
  let pairs := pred_masks.flatten.zip true_masks.flatten
  let iou_per_class := (List.range num_classes).map fun cls =>
    let intersection := maskIntersection pairs cls
    let union := maskUnion pairs cls
    if union = 0 then none
    else some ((intersection : ℚ) / (union : ℚ))
  nanmean iou_per_class

/-- The mean IoU as the spec words it: the mean of intersection/union
over exactly the classes with nonzero union, NaN (none) when no class
has nonzero union. -/
def miou_spec (pred_masks true_masks : List (List ℕ)) (num_classes : ℕ) :
    Option ℚ :=
  let pairs := pred_masks.flatten.zip true_masks.flatten
  let defined := (List.range num_classes).filter fun cls =>
    decide (maskUnion pairs cls ≠ 0)
  if defined = [] then none
  else some
    ((defined.map fun cls =>
        (maskIntersection pairs cls : ℚ) / (maskUnion pairs cls : ℚ)).sum /
      (defined.length : ℚ))

/-- Mapping an if-option body and keeping the defined entries is
filtering by the condition and mapping the payload. -/
theorem filterMap_id_map_ifOption {α : Type} (l : List α) (u : α → ℕ)
    (f : α → ℚ) :
    ((l.map fun a => if u a = 0 then none else some (f a)).filterMap id) =
      (l.filter fun a => decide (u a ≠ 0)).map f := by
  induction l with
  | nil => rfl
  | cons a rest ih =>
      by_cases h : u a = 0 <;> simp [h, ih]

/-- Claim C4: compute_miou scores each class of the range as
intersection over union, a class with union 0 is excluded from the mean
(neither 0 nor 1), and when every class of the range has union 0 the
result is NaN (none). -/
theorem miou_excludes_zero_union (pred_masks true_masks : List (List ℕ))
    (num_classes : ℕ) :
    compute_miou pred_masks true_masks num_classes =
      miou_spec pred_masks true_masks num_classes := by
  unfold compute_miou miou_spec nanmean
  simp only [filterMap_id_map_ifOption, List.length_map, List.length_eq_zero]

/-- Claim C9: on pred = [[0,1],[1,1]] and true = [[0,0],[1,1]] with two
classes, class 0 has intersection 1 and union 2, class 1 has
intersection 2 and union 3, and the mean IoU is 7/12. -/
theorem miou_example_value :
    maskIntersection ([[0,1],[1,1]].flatten.zip [[0,0],[1,1]].flatten) 0 = 1 ∧
    maskUnion ([[0,1],[1,1]].flatten.zip [[0,0],[1,1]].flatten) 0 = 2 ∧
    maskIntersection ([[0,1],[1,1]].flatten.zip [[0,0],[1,1]].flatten) 1 = 2 ∧
    maskUnion ([[0,1],[1,1]].flatten.zip [[0,0],[1,1]].flatten) 1 = 3 ∧
    compute_miou [[0,1],[1,1]] [[0,0],[1,1]] 2 = some (7/12) := by
  refine ⟨by decide, by decide, by decide, by decide, ?_⟩
  simp [compute_miou, nanmean, maskIntersection, maskUnion, List.range_succ]
  norm_num

/-! ### Average Precision (compute_ap and precision_recall_curve_torch,
lines 146-235 of metrics.py)

A sample is a flattened ground-truth pixel list (the view(-1) of line
168) together with a pixel-major list of per-class probability rows (the
permute/reshape of line 169).  torch.argsort descending is modelled by
an insertion sort on (probability, label) pairs. -/

/-- The epsilon of lines 221-222. -/
def epsAP : ℚ := 1 / 10 ^ 8

/-- Running cumulative sums starting from acc. -/
def cumsumFrom (acc : ℚ) : List ℚ → List ℚ
  | [] => []
  | x :: xs => (acc + x) :: cumsumFrom (acc + x) xs

/-- torch.cumsum along the pixel axis. -/
def cumsum (l : List ℚ) : List ℚ := cumsumFrom 0 l

/-- Insert a (probability, label) pair into a list sorted by descending
probability. -/
def insertDesc (p : ℚ × ℚ) : List (ℚ × ℚ) → List (ℚ × ℚ)
  | [] => [p]
  | q :: rest => if p.1 > q.1 then p :: q :: rest else q :: insertDesc p rest

/-- Sort pairs by descending first component (torch.argsort with
descending=True applied jointly to pred and real, lines 212-214). -/
def sortDesc (l : List (ℚ × ℚ)) : List (ℚ × ℚ) := l.foldr insertDesc []

/-- Column class_idx of a row-major matrix (the [:, class_idx] slices of
lines 208-209). -/
def column (rows : List (List ℚ)) (c : ℕ) : List ℚ :=
  rows.map fun row => row.getD c 0

/-- torch.nn.functional.one_hot over num_classes classes (line 172). -/
def one_hot (labels : List ℕ) (num_classes : ℕ) : List (List ℚ) :=
  labels.map fun l => (List.range num_classes).map fun c => if l = c then (1 : ℚ) else 0

/-- Position-wise sum of equally long lists (torch.stack followed by a
sum over the class axis). -/
def sumLists : List (List ℚ) → List ℚ
  | [] => []
  | [l] => l
  | l :: rest => List.zipWith (· + ·) l (sumLists rest)

/-- torch.stack(...).mean(dim=0): position-wise mean across the stacked
per-class arrays (lines 231-233). -/
def meanAcross (ls : List (List ℚ)) : List ℚ :=
  (sumLists ls).map fun s => s / (ls.length : ℚ)

/-- torch.trapz y x: trapezoidal integration of y against x. -/
def trapz : List ℚ → List ℚ → ℚ
  | y1 :: y2 :: ys, x1 :: x2 :: xs =>
      (x2 - x1) * (y1 + y2) / 2 + trapz (y2 :: ys) (x2 :: xs)
  | _, _ => 0

/-- Lines 208-228 of metrics.py, the body of the per-class loop of
precision_recall_curve_torch: sort the (probability, one-hot label)
pairs by descending probability, cumulate tp and fp along that order and
return (precision, recall, thresholds). -/
def classStats (real pred : List ℚ) : List ℚ × List ℚ × List ℚ :=
  let sorted := sortDesc (pred.zip real)
  let realS := sorted.map Prod.snd
  let tp := cumsum realS
  let fp := cumsum (realS.map fun v => 1 - v)
  let precision := List.zipWith (fun t f => t / (t + f + epsAP)) tp fp
  let recallVals := tp.map fun t => t / (realS.sum + epsAP)
  let thresholds := sorted.map Prod.fst
  (precision, recallVals, thresholds)

/-- Lines 189-235 of metrics.py: per class of the one-hot ground truth,
compute the class statistics and return the class-wise means of the
three stacked arrays. -/
def precision_recall_curve_torch (real_one_hot pred_probs : List (List ℚ)) :
    List ℚ × List ℚ × List ℚ :=
  let num_classes := (real_one_hot.headD []).length
  let per_class := (List.range num_classes).map fun class_idx =>
    classStats (column real_one_hot class_idx) (column pred_probs class_idx)
  (meanAcross (per_class.map fun pc => pc.1),
   meanAcross (per_class.map fun pc => pc.2.1),
   meanAcross (per_class.map fun pc => pc.2.2))

/-- Lines 162-178 of metrics.py, the body of the per-sample loop:
one-hot encode over pred.size(1) classes, take the blended
precision-recall curve and integrate it with torch.trapz. -/
def sample_ap (real_flat : List ℕ) (pred_flat : List (List ℚ)) : ℚ :=
  let real_one_hot := one_hot real_flat (pred_flat.headD []).length
  let curves := precision_recall_curve_torch real_one_hot pred_flat
  trapz curves.1 curves.2.1

/-- Lines 146-186 of metrics.py: iterate over zip(real_masks,
pred_probs) accumulating per-sample AP values, divide by the number of
processed samples when positive. -/
def compute_ap (real_masks : List (List ℕ)) (pred_probs : List (List (List ℚ))) : ℚ :=
  let pairs := real_masks.zip pred_probs
  let ap_score := (pairs.map fun pr => sample_ap pr.1 pr.2).sum
  let total_samples := pairs.length
  if 0 < total_samples then ap_score / (total_samples : ℚ) else ap_score

/-- The per-class (precision, recall) pair as the spec words it: sort
pixels by descending probability, cumulate tp and fp, precision
tp/(tp+fp+eps) and recall tp/(total_positives+eps) with the total
positives counted on the (unsorted) one-hot column. -/
def classCurvePair (gt_col score_col : List ℚ) : List ℚ × List ℚ :=
  let sorted := sortDesc (score_col.zip gt_col)
  let tp := cumsum (sorted.map Prod.snd)
  let fp := cumsum ((sorted.map Prod.snd).map fun v => 1 - v)
  (List.zipWith (fun t f => t / (t + f + epsAP)) tp fp,
   tp.map fun t => t / (gt_col.sum + epsAP))

/-- The per-sample AP as the spec words it: the per-class curves are
averaged across classes at each rank position (classes blended before
integration) and the blended curve is integrated by the trapezoidal
rule. -/
def sample_ap_spec (real_flat : List ℕ) (pred_flat : List (List ℚ)) : ℚ :=
  let num_classes := (pred_flat.headD []).length
  let real_one_hot := one_hot real_flat num_classes
  let per_class := (List.range num_classes).map fun class_idx =>
    classCurvePair (column real_one_hot class_idx) (column pred_flat class_idx)
  trapz (meanAcross (per_class.map Prod.fst))
    (meanAcross (per_class.map Prod.snd))

/-- The mean AP over samples as the spec words it: zero on empty input,
otherwise the arithmetic mean of the per-sample values. -/
def ap_spec (real_masks : List (List ℕ)) (pred_probs : List (List (List ℚ))) : ℚ :=
  let pairs := real_masks.zip pred_probs
  if pairs = [] then 0
  else (pairs.map fun pr => sample_ap_spec pr.1 pr.2).sum / (pairs.length : ℚ)

/-- Inserting a pair adds its image to the mapped sum. -/
theorem sum_map_insertDesc (g : ℚ × ℚ → ℚ) (p : ℚ × ℚ) (l : List (ℚ × ℚ)) :
    ((insertDesc p l).map g).sum = g p + (l.map g).sum := by
  induction l with
  | nil => simp [insertDesc]
  | cons q rest ih =>
      by_cases h : p.1 > q.1
      · simp [insertDesc, h]
      · simp [insertDesc, h, ih]
        ring

/-- Sorting by descending probability permutes the pairs, so mapped sums
are unchanged. -/
theorem sum_map_sortDesc (g : ℚ × ℚ → ℚ) (l : List (ℚ × ℚ)) :
    ((sortDesc l).map g).sum = (l.map g).sum := by
  induction l with
  | nil => rfl
  | cons p rest ih =>
      show ((insertDesc p (sortDesc rest)).map g).sum = _
      rw [sum_map_insertDesc, ih]
      simp

/-- The precision arrays of the code's per-class loop and of the spec's
per-class description coincide definitionally. -/
theorem classStats_precision_eq (real pred : List ℚ) :
    (classStats real pred).1 = (classCurvePair real pred).1 := by
  simp [classStats, classCurvePair, List.map_map]

/-- The recall arrays coincide when the label column is no longer than
the probability column: the sorted label sum is the unsorted one. -/
theorem classStats_recall_eq (real pred : List ℚ)
    (h : real.length ≤ pred.length) :
    (classStats real pred).2.1 = (classCurvePair real pred).2 := by
  have hsum : ((sortDesc (pred.zip real)).map Prod.snd).sum = real.sum := by
    rw [sum_map_sortDesc, List.map_snd_zip pred real h]
  simp only [classStats, classCurvePair, hsum]

/-- The per-sample AP of the code (via precision_recall_curve_torch)
agrees with the per-sample AP the spec describes, whenever the sample
has as many ground-truth pixels as probability rows. -/
theorem sample_ap_eq (real_flat : List ℕ) (pred_flat : List (List ℚ))
    (hlen : real_flat.length = pred_flat.length) :
    sample_ap real_flat pred_flat = sample_ap_spec real_flat pred_flat := by
  cases real_flat with
  | nil =>
      cases pred_flat with
      | nil => rfl
      | cons p ps => simp at hlen
  | cons r rs =>
      have hC : ((one_hot (r :: rs) ((pred_flat.headD []).length)).headD []).length
          = (pred_flat.headD []).length := by
        simp [one_hot]
      have hcol : ∀ c : ℕ,
          (column (one_hot (r :: rs) ((pred_flat.headD []).length)) c).length
            ≤ (column pred_flat c).length := by
        intro c
        simp only [List.length_cons] at hlen
        simp [column, one_hot]
        omega
      have hprec :
          ((List.range ((pred_flat.headD []).length)).map fun class_idx =>
            classStats (column (one_hot (r :: rs) ((pred_flat.headD []).length)) class_idx)
              (column pred_flat class_idx)).map (fun pc => pc.1) =
          ((List.range ((pred_flat.headD []).length)).map fun class_idx =>
            classCurvePair (column (one_hot (r :: rs) ((pred_flat.headD []).length)) class_idx)
              (column pred_flat class_idx)).map Prod.fst := by
        simp only [List.map_map]
        apply List.map_congr_left
        intro c _
        exact classStats_precision_eq _ _
      have hrec :
          ((List.range ((pred_flat.headD []).length)).map fun class_idx =>
            classStats (column (one_hot (r :: rs) ((pred_flat.headD []).length)) class_idx)
              (column pred_flat class_idx)).map (fun pc => pc.2.1) =
          ((List.range ((pred_flat.headD []).length)).map fun class_idx =>
            classCurvePair (column (one_hot (r :: rs) ((pred_flat.headD []).length)) class_idx)
              (column pred_flat class_idx)).map Prod.snd := by
        simp only [List.map_map]
        apply List.map_congr_left
        intro c _
        exact classStats_recall_eq _ _ (hcol c)
      simp only [sample_ap, sample_ap_spec, precision_recall_curve_torch, hC,
        hprec, hrec]

/-- Claim C3: for every input whose zipped samples have as many pixels
as probability rows, compute_ap sorts each class by descending
probability, cumulates tp and fp, forms precision tp/(tp+fp+eps) and
recall tp/(total_positives+eps), blends the per-class arrays at each
rank position before integrating by the trapezoidal rule, and returns
the arithmetic mean of the per-sample values. -/
theorem ap_blended_curve_formula (real_masks : List (List ℕ))
    (pred_probs : List (List (List ℚ)))
    (h : ∀ pr ∈ real_masks.zip pred_probs, pr.1.length = pr.2.length) :
    compute_ap real_masks pred_probs = ap_spec real_masks pred_probs := by
  have hmap : (real_masks.zip pred_probs).map (fun pr => sample_ap pr.1 pr.2)
      = (real_masks.zip pred_probs).map (fun pr => sample_ap_spec pr.1 pr.2) :=
    List.map_congr_left fun pr hpr => sample_ap_eq pr.1 pr.2 (h pr hpr)
  unfold compute_ap ap_spec
  by_cases hz : real_masks.zip pred_probs = []
  · simp [hz]
  · have hpos : 0 < (real_masks.zip pred_probs).length := List.length_pos.mpr hz
    rw [if_pos hpos, if_neg hz, hmap]

/-- Claim C3, witness: a one-sample input with two pixels and two
classes. -/
theorem ap_blended_curve_formula_witness :
    (∀ pr ∈ ([[0, 1]] : List (List ℕ)).zip
        ([[[9/10, 1/10], [1/5, 4/5]]] : List (List (List ℚ))),
      pr.1.length = pr.2.length) ∧
    compute_ap [[0, 1]] [[[9/10, 1/10], [1/5, 4/5]]] =
      ap_spec [[0, 1]] [[[9/10, 1/10], [1/5, 4/5]]] :=
  ⟨by simp, ap_blended_curve_formula [[0, 1]] [[[9/10, 1/10], [1/5, 4/5]]] (by simp)⟩

/-- Claim C8: compute_ap on empty input sequences returns exactly 0. -/
theorem ap_empty_returns_zero : compute_ap [] [] = 0 := rfl

/-- Zipping is unchanged by truncating both lists to the shorter
length. -/
theorem zip_take_min {α β : Type} (l₁ : List α) (l₂ : List β) :
    (l₁.take (min l₁.length l₂.length)).zip (l₂.take (min l₁.length l₂.length)) =
      l₁.zip l₂ := by
  induction l₁ generalizing l₂ with
  | nil => simp
  | cons a t ih =>
      cases l₂ with
      | nil => simp
      | cons b u =>
          simp only [List.length_cons, Nat.succ_min_succ, List.take_succ_cons,
            List.zip_cons_cons]
          rw [ih u]

/-- Claim C10: with ground-truth and prediction sequences of different
lengths, compute_ap silently computes over only the first
min(length, length) pairs: it equals compute_ap on the truncated
sequences. -/
theorem ap_zip_truncation (real_masks : List (List ℕ))
    (pred_probs : List (List (List ℚ))) :
    compute_ap real_masks pred_probs =
      compute_ap
        (real_masks.take (min real_masks.length pred_probs.length))
        (pred_probs.take (min real_masks.length pred_probs.length)) := by
  unfold compute_ap
  rw [zip_take_min]

end Sketch2Mask
